import Mathlib

/-!
Shallow embedding of the Cohesix boot integrity pipeline and proofs about it.

Sources embedded here:
  - src/src/bootloader/sha1.c           (sha1_init, sha1_update, sha1_final,
                                         sha1_transform, sha1_to_hex, rotl)
  - src/c/sel4/shim/boot_trampoline.c   (crc32_calc, log_write, boot_trampoline)
  - src/workspace/cohesix/src/bootloader/main.c (efi_main verification phase,
                                         log_message)

Bytes are modelled as natural numbers (values below 256 wherever the C code
reads a uint8_t); 32-bit and 64-bit machine arithmetic is modelled on Nat
with explicit reduction modulo 2^32 and 2^64 at the points where the C
types wrap.
-/

set_option maxRecDepth 40000

/-- 2^32, the modulus of uint32_t arithmetic. -/
def MOD32 : Nat := 4294967296

/-- 2^64, the modulus of uint64_t arithmetic. -/
def MOD64 : Nat := 18446744073709551616

/-- rotl from sha1.c line 17: (x << n) | (x >> (32 - n)) on uint32_t. -/
def rotl (x n : Nat) : Nat := ((x <<< n) ||| (x >>> (32 - n))) % MOD32

/-- Big-endian 32-bit word assembly from sha1.c lines 22-27:
w[i] = block[4i] << 24 | block[4i+1] << 16 | block[4i+2] << 8 | block[4i+3]. -/
def be32 (block : List Nat) (i : Nat) : Nat :=
  ((block.getD (i * 4) 0) <<< 24) ||| ((block.getD (i * 4 + 1) 0) <<< 16) |||
    ((block.getD (i * 4 + 2) 0) <<< 8) ||| (block.getD (i * 4 + 3) 0)

/-- The first 16 words of the SHA-1 message schedule (sha1.c lines 22-27). -/
def sha1_w16 (block : List Nat) : List Nat := (List.range 16).map (be32 block)

/-- Message-schedule expansion, sha1.c lines 28-29: appends
w[i] = rotl(w[i-3] xor w[i-8] xor w[i-14] xor w[i-16], 1), iterated. -/
def sha1_extendW : Nat → List Nat → List Nat
  | 0, w => w
  | k + 1, w =>
    sha1_extendW k (w ++ [rotl ((w.getD (w.length - 3) 0) ^^^ (w.getD (w.length - 8) 0) ^^^
      (w.getD (w.length - 14) 0) ^^^ (w.getD (w.length - 16) 0)) 1])

/-- The 80-word message schedule of one block (sha1.c lines 21-29). -/
def sha1_schedule (block : List Nat) : List Nat := sha1_extendW 64 (sha1_w16 block)

/-- Round function and constant, sha1.c lines 38-51; ~b on uint32_t is
b xor 0xFFFFFFFF. -/
def sha1_fk (i b c d : Nat) : Nat × Nat :=
  if i < 20 then ((b &&& c) ||| ((b ^^^ 0xFFFFFFFF) &&& d), 0x5A827999)
  else if i < 40 then (b ^^^ c ^^^ d, 0x6ED9EBA1)
  else if i < 60 then ((b &&& c) ||| (b &&& d) ||| (c &&& d), 0x8F1BBCDC)
  else (b ^^^ c ^^^ d, 0xCA62C1D6)

/-- One step of the 80-round loop, sha1.c lines 52-57:
temp = rotl(a,5)+f+e+k+w[i]; e=d; d=c; c=rotl(b,30); b=a; a=temp. -/
def sha1_round (w : List Nat) (st : Nat × Nat × Nat × Nat × Nat) (i : Nat) :
    Nat × Nat × Nat × Nat × Nat :=
  let (a, b, c, d, e) := st
  let fk := sha1_fk i b c d
  let temp := (rotl a 5 + fk.1 + e + fk.2 + w.getD i 0) % MOD32
  (temp, a, rotl b 30, c, d)

/-- sha1_transform, sha1.c lines 19-65: schedule expansion, 80 rounds,
then state[j] += working variable j (mod 2^32). -/
def sha1_transform (state : List Nat) (block : List Nat) : List Nat :=
  let w := sha1_schedule block
  let s0 := state.getD 0 0
  let s1 := state.getD 1 0
  let s2 := state.getD 2 0
  let s3 := state.getD 3 0
  let s4 := state.getD 4 0
  let r := (List.range 80).foldl (sha1_round w) (s0, s1, s2, s3, s4)
  [(s0 + r.1) % MOD32, (s1 + r.2.1) % MOD32, (s2 + r.2.2.1) % MOD32,
   (s3 + r.2.2.2.1) % MOD32, (s4 + r.2.2.2.2) % MOD32]

/-- sha1_ctx, sha1.c lines 10-15.  The 64-byte buffer of the C struct is
modelled as the list of its first buflen bytes (the C code never reads a
buffer byte it has not first written), so buffer.length plays the role of
ctx->buflen. -/
structure Sha1Ctx where
  state : List Nat
  bitlen : Nat
  buffer : List Nat
  deriving DecidableEq, Repr

/-- sha1_init, sha1.c lines 67-76. -/
def sha1_init : Sha1Ctx :=
  ⟨[0x67452301, 0xEFCDAB89, 0x98BADCFE, 0x10325476, 0xC3D2E1F0], 0, []⟩

/-- The byte-consuming loop of sha1_update, sha1.c lines 81-92.  The C code
memcpy-s min(64 - buflen, len) bytes at a time into the block buffer and
runs sha1_transform whenever the buffer reaches 64 bytes; feeding the bytes
one at a time produces exactly the same sequence of buffer states and
transform calls, and is how the loop is embedded here. -/
def sha1_feed (st : List Nat) (buf : List Nat) : List Nat → List Nat × List Nat
  | [] => (st, buf)
  | b :: rest =>
    if (buf ++ [b]).length = 64 then sha1_feed (sha1_transform st (buf ++ [b])) [] rest
    else sha1_feed st (buf ++ [b]) rest

/-- sha1_update, sha1.c lines 78-93: bitlen += 8*len (uint64_t, wraps mod
2^64), then the block-buffering loop. -/
def sha1_update (ctx : Sha1Ctx) (data : List Nat) : Sha1Ctx :=
  let p := sha1_feed ctx.state ctx.buffer data
  ⟨p.1, (ctx.bitlen + data.length * 8) % MOD64, p.2⟩

/-- sha1_final, sha1.c lines 95-118: append 0x80; if the buffer now holds
more than 56 bytes, zero-fill to 64 and transform; zero-fill to 56, append
the 8 big-endian bit-length bytes, transform, and serialize the five state
words big-endian into 20 digest bytes. -/
def sha1_final (ctx : Sha1Ctx) : List Nat :=
  let buf := ctx.buffer ++ [0x80]
  let p : List Nat × List Nat :=
    if 56 < buf.length then
      (sha1_transform ctx.state (buf ++ List.replicate (64 - buf.length) 0), [])
    else (ctx.state, buf)
  let padded := p.2 ++ List.replicate (56 - p.2.length) 0
  let lenB := (List.range 8).map (fun i => (ctx.bitlen >>> (56 - 8 * i)) % 256)
  let st2 := sha1_transform p.1 (padded ++ lenB)
  st2.flatMap (fun wd => [(wd >>> 24) % 256, (wd >>> 16) % 256, (wd >>> 8) % 256, wd % 256])

/-- sha1_final instrumented with the number of sha1_transform calls it
makes; first component is the digest exactly as in sha1_final, second
component counts the transforms (sha1.c lines 101 and 110). -/
def sha1_finalT (ctx : Sha1Ctx) : List Nat × Nat :=
  let buf := ctx.buffer ++ [0x80]
  let p : (List Nat × List Nat) × Nat :=
    if 56 < buf.length then
      ((sha1_transform ctx.state (buf ++ List.replicate (64 - buf.length) 0), []), 1)
    else ((ctx.state, buf), 0)
  let padded := p.1.2 ++ List.replicate (56 - p.1.2.length) 0
  let lenB := (List.range 8).map (fun i => (ctx.bitlen >>> (56 - 8 * i)) % 256)
  let st2 := sha1_transform p.1.1 (padded ++ lenB)
  (st2.flatMap (fun wd => [(wd >>> 24) % 256, (wd >>> 16) % 256, (wd >>> 8) % 256, wd % 256]),
    p.2 + 1)

/-- ASCII code of the i-th character of "0123456789abcdef"
(sha1.c line 122, boot_trampoline.c line 109). -/
def hexDigitCode (n : Nat) : Nat := if n < 10 then 48 + n else 87 + n

/-- sha1_to_hex, sha1.c lines 120-128, as the list of the 40 ASCII codes
out[0..39]; the terminating NUL of the C char array is not part of the
string value. -/
def sha1_to_hex (digest : List Nat) : List Nat :=
  digest.foldr (fun b acc => hexDigitCode (b >>> 4) :: hexDigitCode (b &&& 0x0F) :: acc) []

/-- sha1_to_hex rendered as a Lean String, for stating the hex known-answer
vectors. -/
def sha1_to_hex_str (digest : List Nat) : String :=
  String.mk ((sha1_to_hex digest).map Char.ofNat)

/-- One table-free CRC-32 bit step, boot_trampoline.c lines 100-101:
crc = (crc >> 1) ^ (0xEDB88320 & (-(int)(crc & 1))); the all-ones mask of
the negated low bit is written out explicitly. -/
def crc32_step (crc : Nat) : Nat :=
  (crc >>> 1) ^^^ (0xEDB88320 &&& (if crc &&& 1 = 1 then 0xFFFFFFFF else 0))

/-- crc32_calc, boot_trampoline.c lines 94-104: all-ones initialization,
xor each input byte into the accumulator, eight bit steps per byte, final
one's-complement.  The (data, len) pair of the C signature is modelled as
the list of the len bytes read. -/
def crc32_calc (data : List Nat) : Nat :=
  (data.foldl (fun crc b => (List.range 8).foldl (fun c _ => crc32_step c) (crc ^^^ (b % 256)))
    0xFFFFFFFF) ^^^ 0xFFFFFFFF

/-- COH_BOOT_TRAMPOLINE_LOG_SIZE: the capacity of fallback_log
(boot_trampoline.h line 27, value 128). -/
def LOG_SIZE : Nat := 128

/-- The fallback_log array together with log_pos
(boot_trampoline.c lines 37-38).  arr is the whole 128-byte array. -/
structure LogBuf where
  arr : List Nat
  pos : Nat
  deriving DecidableEq, Repr

/-- Initial state of the static fallback_log / log_pos: zero-initialized
array, position 0. -/
def log_init : LogBuf := ⟨List.replicate LOG_SIZE 0, 0⟩

/-- The copy loop of log_write, boot_trampoline.c lines 80-83:
while (*p and log_pos < sizeof(fallback_log) - 1) fallback_log[log_pos++] = *p++. -/
def log_write_loop : List Nat → LogBuf → LogBuf
  | [], lb => lb
  | c :: rest, lb =>
    if c ≠ 0 ∧ lb.pos < LOG_SIZE - 1 then
      log_write_loop rest ⟨lb.arr.set lb.pos c, lb.pos + 1⟩
    else lb

/-- The fallback-buffer effect of log_write, boot_trampoline.c lines 73-85:
copy loop, then fallback_log[log_pos] = 0.  (The unconditional UART echo of
the same bytes is modelled separately in the trampoline state.) -/
def log_write (s : List Nat) (lb : LogBuf) : LogBuf :=
  let lb2 := log_write_loop s lb
  ⟨lb2.arr.set lb2.pos 0, lb2.pos⟩

/-- trampoline_hdr_t, boot_trampoline.h lines 39-43. -/
structure TrampolineHdr where
  crc : Nat
  length : Nat
  role_hint : List Nat
  deriving DecidableEq, Repr

/-- Observable output state of the trampoline: bytes written to the UART
register in order, and the fallback log buffer. -/
structure BootSt where
  console : List Nat
  log : LogBuf
  deriving DecidableEq, Repr

/-- console_write, boot_trampoline.c lines 48-53: every byte of the string
up to its NUL goes to the UART. -/
def bs_console_write (s : List Nat) (st : BootSt) : BootSt :=
  ⟨st.console ++ s.takeWhile (fun c => c ≠ 0), st.log⟩

/-- console_putc of a single byte, boot_trampoline.c lines 43-46. -/
def bs_console_putc (c : Nat) (st : BootSt) : BootSt :=
  ⟨st.console ++ [c], st.log⟩

/-- log_write, boot_trampoline.c lines 73-85: echoes the string to the UART
and appends it to the fallback log buffer. -/
def bs_log_write (s : List Nat) (st : BootSt) : BootSt :=
  ⟨st.console ++ s.takeWhile (fun c => c ≠ 0), log_write s st.log⟩

/-- ASCII codes of a string literal. -/
def ascii (s : String) : List Nat := s.toList.map Char.toNat

/-- write_hex, boot_trampoline.c lines 106-118, with sizeof(uintptr_t) = 8:
"0x" followed by 16 hex digits, most significant nibble first, via log_write. -/
def write_hex (value : Nat) (st : BootSt) : BootSt :=
  bs_log_write ([48, 120] ++ (List.range 16).map
    (fun i => hexDigitCode ((value >>> ((16 - 1 - i) * 4)) &&& 0xF))) st

/-- log_status, boot_trampoline.c lines 120-127. -/
def log_status (entry : Nat) (ok : Bool) (st : BootSt) : BootSt :=
  bs_log_write (ascii "\n")
    (bs_log_write (if ok then ascii "ok" else ascii "fail")
      (bs_log_write (ascii " crc ")
        (write_hex entry
          (bs_log_write (ascii "trampoline ") st))))

/-- emit_fail_console, boot_trampoline.c lines 61-66. -/
def emit_fail_console (reason : List Nat) (st : BootSt) : BootSt :=
  bs_console_putc 10 (bs_console_write reason (bs_console_write (ascii "BOOT_FAIL:") st))

/-- emit_success_telemetry, boot_trampoline.c lines 68-71. -/
def emit_success_telemetry (st : BootSt) : BootSt :=
  bs_console_putc 10 (bs_console_write (ascii "BOOT_OK") st)

/-- Terminal outcome of the trampoline: the u-loop of panic_uart
(boot_trampoline.c lines 90-91) or the non-returning hand-off to
rust_early_init (line 152). -/
inductive BootOutcome where
  | halted
  | handedOff
  deriving DecidableEq, Repr

/-- Result of one run of boot_trampoline: the boot_trampoline_crc_ok global
(int, 0 or 1), the output state, the terminal outcome, and how many times
rust_early_init was invoked. -/
structure BootResult where
  crc_ok : Nat
  st : BootSt
  outcome : BootOutcome
  handoffCount : Nat
  deriving DecidableEq, Repr

/-- boot_trampoline, boot_trampoline.c lines 129-155.  mem i is the byte at
offset i from the rust_early_init symbol (the CRC input region); entry is
the numeric address of rust_early_init as printed by log_status.  The CRC
is computed only when the header length is non-zero; on mismatch the
function logs, emits the failure marker, and panics (halts) without
invoking rust_early_init; otherwise it emits BOOT_OK and hands off once. -/
def boot_trampoline (hdr : TrampolineHdr) (mem : Nat → Nat) (entry : Nat) : BootResult :=
  let calcv := if hdr.length ≠ 0 then crc32_calc ((List.range hdr.length).map mem) else 0
  let ok : Bool := hdr.length = 0 ∨ calcv = hdr.crc
  let okInt := if ok then 1 else 0
  let st0 : BootSt := ⟨[], log_init⟩
  let st1 := log_status entry ok st0
  if ok then
    ⟨okInt, emit_success_telemetry st1, BootOutcome.handedOff, 1⟩
  else
    ⟨okInt,
      bs_log_write (ascii "panic: trampoline CRC mismatch\n")
        (emit_fail_console (ascii "crc_mismatch") st1),
      BootOutcome.halted, 0⟩

/-- The kernel-reading loop of efi_main, main.c lines 74-86: reads the
image in 512-byte chunks, calling sha1_update once per chunk until a read
returns zero bytes.  fuel bounds the number of iterations; the callers
below always supply enough fuel for the whole input. -/
def efi_read_loop : Nat → Sha1Ctx → List Nat → Sha1Ctx
  | 0, ctx, _ => ctx
  | fuel + 1, ctx, bytes =>
    if bytes = [] then ctx
    else efi_read_loop fuel (sha1_update ctx (bytes.take 512)) (bytes.drop 512)

/-- The 40-byte lowercase hex digest the verifier computes for a fully
readable kernel image (main.c lines 71-91), as ASCII codes. -/
def efi_actual_hex (kb : List Nat) : List Nat :=
  sha1_to_hex (sha1_final (efi_read_loop (kb.length + 1) sha1_init kb))

/-- The newline-trimming scan of efi_main, main.c lines 105-110: walk the
first hsz bytes of the expected buffer and replace the first CR or LF with
NUL.  The iteration is driven by the remaining count, with i the current
index. -/
def crlf_go : List Nat → Nat → Nat → List Nat
  | buf, _, 0 => buf
  | buf, i, fuel + 1 =>
    if buf.getD i 0 = 10 ∨ buf.getD i 0 = 13 then buf.set i 0
    else crlf_go buf (i + 1) fuel

/-- expected[hsz] = 0 followed by the CR/LF scan over expected[0..hsz)
(main.c lines 104-110). -/
def efi_trim_expected (hsz : Nat) (buf : List Nat) : List Nat :=
  crlf_go (buf.set hsz 0) 0 hsz

/-- How opening and reading \kernel.elf goes in one run: the Open call
fails, a Read call fails after some prefix was hashed, or all bytes are
read to end-of-stream. -/
inductive KernelFile where
  | openFail
  | readFail (readPart : List Nat)
  | ok (bytes : List Nat)
  deriving DecidableEq, Repr

/-- How opening and reading \kernel.sha1 goes: the Open call fails, or Open
succeeds and the single Read call leaves read status readErr, size hsz and
the 41-byte stack buffer holding buf.  efi_main never checks readErr
(main.c line 102 assigns the status and line 104 immediately uses the
buffer), which the model preserves by ignoring the flag. -/
inductive HashFile where
  | openFail
  | afterRead (readErr : Bool) (hsz : Nat) (buf : List Nat)
  deriving DecidableEq, Repr

/-- A successful read of a digest artifact with content c into an
uninitialized 41-byte stack buffer junk: at most 40 bytes are read
(main.c line 101: hsz = sizeof(expected) - 1), the rest of the buffer
keeps its prior junk. -/
def HashFile.fromContent (c junk : List Nat) : HashFile :=
  HashFile.afterRead false (min c.length 40) (c.take 40 ++ junk.drop (min c.length 40))

/-- Outcome of the verification phase of efi_main: Verified means control
reached the image-loading code past the digest comparison (main.c line
117); the Failed cases name the return paths at main.c lines 69, 81, 98
and 114. -/
inductive VerifyResult where
  | verified
  | kernelMissing
  | kernelReadError
  | hashMissing
  | mismatch
  deriving DecidableEq, Repr

/-- Result of the verification phase together with the lines appended to
\boot.log by log_message (main.c lines 15-29), in order, as ASCII codes.
log_message is modelled with its Open call succeeding; when that call
fails the C function silently appends nothing. -/
structure EfiOutcome where
  result : VerifyResult
  log : List (List Nat)
  deriving DecidableEq, Repr

/-- The verification phase of efi_main, main.c lines 62-115: open and hash
the kernel image (chunked reads), open and read the expected digest, NUL
substitute at hsz and at the first CR/LF, then CompareMem over exactly 40
bytes decides between Verified and the EFI_SECURITY_VIOLATION mismatch
path.  Each failure path appends its one diagnostic line. -/
def efi_verify (kf : KernelFile) (hf : HashFile) : EfiOutcome :=
  match kf with
  | KernelFile.openFail => ⟨VerifyResult.kernelMissing, [ascii "kernel.elf missing\n"]⟩
  | KernelFile.readFail _ => ⟨VerifyResult.kernelReadError, [ascii "kernel read error\n"]⟩
  | KernelFile.ok kb =>
    match hf with
    | HashFile.openFail => ⟨VerifyResult.hashMissing, [ascii "kernel.sha1 missing\n"]⟩
    | HashFile.afterRead _ hsz buf =>
      if (efi_trim_expected hsz buf).take 40 = efi_actual_hex kb then
        ⟨VerifyResult.verified, []⟩
      else
        ⟨VerifyResult.mismatch, [ascii "kernel hash mismatch\n"]⟩

theorem sha1_feed_append (a b : List Nat) : ∀ st buf,
    sha1_feed st buf (a ++ b) =
      sha1_feed (sha1_feed st buf a).1 (sha1_feed st buf a).2 b := by
  induction a with
  | nil => intro st buf; rfl
  | cons c a ih =>
    intro st buf
    simp only [List.cons_append, sha1_feed]
    split
    · exact ih _ _
    · exact ih _ _

theorem sha1_update_append (ctx : Sha1Ctx) (a b : List Nat) :
    sha1_update (sha1_update ctx a) b = sha1_update ctx (a ++ b) := by
  unfold sha1_update
  simp only [sha1_feed_append, List.length_append, Sha1Ctx.mk.injEq]
  refine ⟨trivial, ?_, trivial⟩
  rw [Nat.mod_add_mod]
  congr 1
  omega

theorem MOD64_pos : 0 < MOD64 := by decide

theorem sha1_update_nil (ctx : Sha1Ctx) (h : ctx.bitlen < MOD64) :
    sha1_update ctx [] = ctx := by
  unfold sha1_update
  simp only [List.length_nil, Nat.zero_mul, Nat.add_zero, Nat.mod_eq_of_lt h]
  rfl

theorem sha1_update_bitlen_lt (ctx : Sha1Ctx) (data : List Nat) :
    (sha1_update ctx data).bitlen < MOD64 :=
  Nat.mod_lt _ MOD64_pos

theorem sha1_foldl_update (chunks : List (List Nat)) : ∀ ctx : Sha1Ctx,
    ctx.bitlen < MOD64 →
      chunks.foldl sha1_update ctx = sha1_update ctx chunks.flatten := by
  induction chunks with
  | nil =>
    intro ctx h
    simp only [List.foldl_nil, List.flatten_nil, sha1_update_nil ctx h]
  | cons c cs ih =>
    intro ctx _
    simp only [List.foldl_cons, List.flatten_cons,
      ih (sha1_update ctx c) (sha1_update_bitlen_lt ctx c), sha1_update_append]

/-- C1: Streaming equivalence of the digest engine.  For every partition of
a byte sequence into non-empty chunks, running sha1_update once per chunk
from sha1_init and then sha1_final yields the same 20-byte digest as a
single sha1_update over the concatenated sequence. -/
theorem sha1_streaming_equivalence (chunks : List (List Nat))
    (hne : ∀ c ∈ chunks, c ≠ ([] : List Nat)) :
    sha1_final (chunks.foldl sha1_update sha1_init) =
      sha1_final (sha1_update sha1_init chunks.flatten) := by
  rw [sha1_foldl_update chunks sha1_init (by decide)]

/-- Witness for C1 at the partition of "abc" into "a" and "bc". -/
theorem sha1_streaming_equivalence_witness :
    (∀ c ∈ [[97], [98, 99]], c ≠ ([] : List Nat)) ∧
      sha1_final ([[97], [98, 99]].foldl sha1_update sha1_init) =
        sha1_final (sha1_update sha1_init [[97], [98, 99]].flatten) :=
  ⟨by decide, sha1_streaming_equivalence [[97], [98, 99]] (by decide)⟩

/-- C2: SHA-1 known-answer vectors.  The pipeline sha1_init, sha1_update,
sha1_final, sha1_to_hex maps the empty input to the 40-character lowercase
hex string for SHA-1 of the empty message, and the 3-byte input "abc" to
the standard SHA-1 test-vector digest. -/
theorem sha1_known_answer_vectors :
    sha1_to_hex_str (sha1_final (sha1_update sha1_init [])) =
        "da39a3ee5e6b4b0d3255bfef95601890afd80709" ∧
      sha1_to_hex_str (sha1_final (sha1_update sha1_init [97, 98, 99])) =
        "a9993e364706816aba3e25717850c26c9cd0d89d" :=
  ⟨by decide, by decide⟩

/-- C3: CRC-32 known-answer vectors for crc32_calc: the empty input yields
0x00000000 and the ASCII bytes of "123456789" yield 0xCBF43926, under the
reflected polynomial 0xEDB88320, all-ones initialization and final
one's-complement that crc32_calc implements. -/
theorem crc32_known_answer_vectors :
    crc32_calc [] = 0x00000000 ∧
      crc32_calc [49, 50, 51, 52, 53, 54, 55, 56, 57] = 0xCBF43926 :=
  ⟨by decide, by decide⟩

/-- C10: sha1_update with an empty input is the identity on every field of
a digest context whose bit counter is a uint64_t value, and consequently
deleting (equivalently, inserting) empty chunks anywhere in an update
sequence changes neither the intermediate contexts nor the final digest. -/
theorem sha1_update_empty_identity :
    (∀ ctx : Sha1Ctx, ctx.bitlen < MOD64 → sha1_update ctx [] = ctx) ∧
      (∀ (ctx : Sha1Ctx) (chunks : List (List Nat)), ctx.bitlen < MOD64 →
        (chunks.filter (fun c => !c.isEmpty)).foldl sha1_update ctx =
          chunks.foldl sha1_update ctx) ∧
      (∀ chunks : List (List Nat),
        sha1_final ((chunks.filter (fun c => !c.isEmpty)).foldl sha1_update sha1_init) =
          sha1_final (chunks.foldl sha1_update sha1_init)) := by
  have h2 : ∀ (chunks : List (List Nat)) (ctx : Sha1Ctx), ctx.bitlen < MOD64 →
      (chunks.filter (fun c => !c.isEmpty)).foldl sha1_update ctx =
        chunks.foldl sha1_update ctx := by
    intro chunks
    induction chunks with
    | nil => intro ctx _; rfl
    | cons c cs ih =>
      intro ctx h
      match c with
      | [] =>
        rw [List.filter_cons_of_neg (by decide), List.foldl_cons,
          sha1_update_nil ctx h]
        exact ih ctx h
      | d :: ds =>
        rw [List.filter_cons_of_pos (by simp), List.foldl_cons, List.foldl_cons]
        exact ih (sha1_update ctx (d :: ds)) (sha1_update_bitlen_lt ctx (d :: ds))
  exact ⟨fun ctx h => sha1_update_nil ctx h,
    fun ctx chunks h => h2 chunks ctx h,
    fun chunks => by rw [h2 chunks sha1_init (by decide)]⟩

/-- Witness for C10 at a concrete context and a chunk sequence with empty
pieces interleaved. -/
theorem sha1_update_empty_identity_witness :
    sha1_init.bitlen < MOD64 ∧
      sha1_update sha1_init [] = sha1_init ∧
      ([[], [97], [], [98, 99], []].filter (fun c => !c.isEmpty)).foldl
          sha1_update sha1_init =
        [[], [97], [], [98, 99], []].foldl sha1_update sha1_init :=
  ⟨by decide, sha1_update_empty_identity.1 sha1_init (by decide),
    sha1_update_empty_identity.2.1 sha1_init [[], [97], [], [98, 99], []] (by decide)⟩

theorem sha1_finalT_fst (ctx : Sha1Ctx) : (sha1_finalT ctx).1 = sha1_final ctx := by
  unfold sha1_finalT sha1_final
  dsimp only
  split <;> rfl

theorem sha1_finalT_count (ctx : Sha1Ctx) :
    (sha1_finalT ctx).2 = if ctx.buffer.length < 56 then 1 else 2 := by
  unfold sha1_finalT
  dsimp only
  by_cases h : 56 < (ctx.buffer ++ [0x80]).length
  · rw [if_pos h, if_neg (by simp at h; omega)]
  · rw [if_neg h, if_pos (by simp at h; omega)]

theorem sha1_feed_buffer_lt (data : List Nat) : ∀ st buf,
    List.length buf < 64 → (sha1_feed st buf data).2.length < 64 := by
  induction data with
  | nil => intro st buf h; exact h
  | cons b rest ih =>
    intro st buf h
    simp only [sha1_feed]
    split
    · exact ih _ _ (by decide)
    · rename_i hne
      refine ih _ _ ?_
      simp only [List.length_append, List.length_cons, List.length_nil] at hne ⊢
      omega

/-- C8 counterexample: after sha1_init and a single 56-byte sha1_update the
context is reachable, yet sha1_final performs two sha1_transform calls on
it, not one. -/
theorem sha1_final_two_transforms :
    (sha1_finalT (sha1_update sha1_init (List.replicate 56 0))).2 = 2 := by decide

/-- C8 amended: on every context reachable by sha1_init followed by any
sequence of sha1_update calls, sha1_final performs exactly one additional
full-block transform when fewer than 56 bytes are buffered and exactly two
when 56 or more are buffered; in every case at least one and at most two,
and the instrumented count leaves the digest itself unchanged. -/
theorem sha1_final_transform_count (chunks : List (List Nat)) :
    (sha1_finalT (chunks.foldl sha1_update sha1_init)).2 =
        (if (chunks.foldl sha1_update sha1_init).buffer.length < 56 then 1 else 2) ∧
      1 ≤ (sha1_finalT (chunks.foldl sha1_update sha1_init)).2 ∧
      (sha1_finalT (chunks.foldl sha1_update sha1_init)).2 ≤ 2 ∧
      (sha1_finalT (chunks.foldl sha1_update sha1_init)).1 =
        sha1_final (chunks.foldl sha1_update sha1_init) := by
  refine ⟨sha1_finalT_count _, ?_, ?_, sha1_finalT_fst _⟩
  · rw [sha1_finalT_count]; split <;> omega
  · rw [sha1_finalT_count]; split <;> omega

/-- C4: zero-length bypass of the CRC gate.  Whenever the Trampoline Header
length field is 0, boot_trampoline sets boot_trampoline_crc_ok to 1,
whatever the expected CRC and whatever bytes sit at the hand-off entry
point. -/
theorem boot_trampoline_zero_length_bypass (hdr : TrampolineHdr) (mem : Nat → Nat)
    (entry : Nat) (h : hdr.length = 0) :
    (boot_trampoline hdr mem entry).crc_ok = 1 := by
  unfold boot_trampoline
  simp [h]

/-- Witness for C4: a header with length 0 and an arbitrary expected CRC
over arbitrary memory contents still reports success. -/
theorem boot_trampoline_zero_length_bypass_witness :
    (⟨0xDEADBEEF, 0, []⟩ : TrampolineHdr).length = 0 ∧
      (boot_trampoline ⟨0xDEADBEEF, 0, []⟩ (fun _ => 0xAB) 0x40000000).crc_ok = 1 :=
  ⟨rfl, boot_trampoline_zero_length_bypass ⟨0xDEADBEEF, 0, []⟩ (fun _ => 0xAB) 0x40000000 rfl⟩

/-- C5: no hand-off on CRC failure.  With a non-zero length whose computed
CRC differs from the header's expected CRC, boot_trampoline halts in the
panic loop and never invokes rust_early_init; and in every run the hand-off
happens at most once, and only when the length is zero (Bypassed) or the
computed CRC equals the expected one (Verified). -/
theorem boot_trampoline_no_handoff_on_mismatch (hdr : TrampolineHdr) (mem : Nat → Nat)
    (entry : Nat) :
    (hdr.length ≠ 0 → crc32_calc ((List.range hdr.length).map mem) ≠ hdr.crc →
        (boot_trampoline hdr mem entry).outcome = BootOutcome.halted ∧
          (boot_trampoline hdr mem entry).handoffCount = 0) ∧
      (boot_trampoline hdr mem entry).handoffCount ≤ 1 ∧
      ((boot_trampoline hdr mem entry).handoffCount = 1 →
        hdr.length = 0 ∨ crc32_calc ((List.range hdr.length).map mem) = hdr.crc) := by
  unfold boot_trampoline
  by_cases hlen : hdr.length = 0
  · simp [hlen]
  · by_cases hcrc : crc32_calc ((List.range hdr.length).map mem) = hdr.crc
    · simp [hlen, hcrc]
    · simp [hlen, hcrc]

/-- Witness for C5: a one-byte region of a single zero byte with expected
CRC 0 fails the gate, halts, and performs no hand-off. -/
theorem boot_trampoline_no_handoff_on_mismatch_witness :
    (⟨0, 1, []⟩ : TrampolineHdr).length ≠ 0 ∧
      crc32_calc ((List.range 1).map (fun _ => 0)) ≠ (⟨0, 1, []⟩ : TrampolineHdr).crc ∧
      (boot_trampoline ⟨0, 1, []⟩ (fun _ => 0) 0x40000000).outcome = BootOutcome.halted ∧
      (boot_trampoline ⟨0, 1, []⟩ (fun _ => 0) 0x40000000).handoffCount = 0 :=
  ⟨by decide, by decide,
    ((boot_trampoline_no_handoff_on_mismatch ⟨0, 1, []⟩ (fun _ => 0) 0x40000000).1
      (by decide) (by decide)).1,
    ((boot_trampoline_no_handoff_on_mismatch ⟨0, 1, []⟩ (fun _ => 0) 0x40000000).1
      (by decide) (by decide)).2⟩

/-- C6: when the kernel image is fully readable and the digest artifact is
opened and read successfully into the 41-byte stack buffer, the verifier
reports Verified with no boot-log line exactly when the 40 compared bytes
of the trimmed expected buffer equal the computed hex digest, and reports
the EFI_SECURITY_VIOLATION mismatch path with exactly one diagnostic
boot-log line when they differ. -/
theorem efi_verify_match_vs_mismatch (kb c junk : List Nat) :
    (efi_verify (KernelFile.ok kb) (HashFile.fromContent c junk)).result =
        (if (efi_trim_expected (min c.length 40)
              (c.take 40 ++ junk.drop (min c.length 40))).take 40 = efi_actual_hex kb
          then VerifyResult.verified else VerifyResult.mismatch) ∧
      (efi_verify (KernelFile.ok kb) (HashFile.fromContent c junk)).log.length =
        (if (efi_trim_expected (min c.length 40)
              (c.take 40 ++ junk.drop (min c.length 40))).take 40 = efi_actual_hex kb
          then 0 else 1) := by
  unfold efi_verify HashFile.fromContent
  by_cases h : (efi_trim_expected (min c.length 40)
      (c.take 40 ++ junk.drop (min c.length 40))).take 40 = efi_actual_hex kb
  · simp [h]
  · simp [h]

/-- C7 (evidence of the code bug): the status of the Read call on
kernel.sha1 is assigned but never checked (main.c lines 102-111).  With an
empty kernel image, a digest artifact whose open succeeds but whose read
fails, and a stack buffer that happens to hold the matching 40 hex
characters, the verifier reports Verified and appends no boot-log line,
instead of the Failed(missing-artifact) outcome the spec requires. -/
theorem efi_verify_unchecked_hash_read_bug :
    efi_verify (KernelFile.ok [])
        (HashFile.afterRead true 40
          (ascii "da39a3ee5e6b4b0d3255bfef95601890afd80709" ++ [0])) =
      ⟨VerifyResult.verified, []⟩ := by decide

theorem list_set_append_mid {α : Type} (xs : List α) (y : α) (ys : List α) (v : α) :
    (xs ++ y :: ys).set xs.length v = xs ++ v :: ys := by
  induction xs with
  | nil => rfl
  | cons x xs ih => simp only [List.cons_append, List.length_cons, List.set_cons_succ, ih]

theorem list_take_append_take {α : Type} (xs ys : List α) (n : Nat) :
    (xs.take n ++ ys).take n = (xs ++ ys).take n := by
  rw [List.take_append_eq_append_take, List.take_append_eq_append_take, List.take_take,
    List.length_take]
  have h : n - n ⊓ xs.length = n - xs.length := by
    rcases Nat.le_total n xs.length with h | h
    · rw [Nat.min_eq_left h]; omega
    · rw [Nat.min_eq_right h]
  rw [h, Nat.min_self]

theorem log_write_loop_spec (m : List Nat) : ∀ w : List Nat,
    (∀ c ∈ m, c ≠ 0) → w.length ≤ 127 →
      log_write_loop m ⟨w ++ List.replicate (128 - w.length) 0, w.length⟩ =
        ⟨(w ++ m).take 127 ++ List.replicate (128 - min (w.length + m.length) 127) 0,
          min (w.length + m.length) 127⟩ := by
  induction m with
  | nil =>
    intro w hm hw
    simp only [log_write_loop, List.append_nil, List.length_nil, Nat.add_zero]
    rw [List.take_of_length_le hw, Nat.min_eq_left hw]
  | cons c rest ih =>
    intro w hm hw
    have hc : c ≠ 0 := hm c (List.mem_cons_self _ _)
    by_cases hlt : w.length < 127
    · simp only [log_write_loop]
      rw [if_pos ⟨hc, by simp only [LOG_SIZE]; omega⟩]
      have hrep : List.replicate (128 - w.length) (0 : Nat) =
          0 :: List.replicate (127 - w.length) 0 := by
        rw [show 128 - w.length = (127 - w.length) + 1 by omega, List.replicate_succ]
      simp only [hrep, list_set_append_mid]
      have hstep : (w ++ c :: List.replicate (127 - w.length) 0 : List Nat) =
          (w ++ [c]) ++ List.replicate (128 - (w ++ [c]).length) 0 := by
        simp only [List.append_assoc, List.singleton_append, List.length_append,
          List.length_cons, List.length_nil]
        rw [show 128 - (w.length + 1) = 127 - w.length by omega]
      have hpos : w.length + 1 = (w ++ [c]).length := by simp
      rw [hstep, hpos, ih (w ++ [c]) (fun x hx => hm x (List.mem_cons_of_mem _ hx))
        (by simp; omega)]
      simp only [LogBuf.mk.injEq, List.append_assoc, List.singleton_append,
        List.length_append, List.length_cons, List.length_nil]
      constructor
      · congr 2
        omega
      · omega
    · have hw127 : w.length = 127 := by omega
      simp only [log_write_loop]
      rw [if_neg (by simp only [LOG_SIZE]; omega)]
      have h1 : min (w.length + (c :: rest).length) 127 = 127 := by
        simp only [List.length_cons]; omega
      have h2 : (w ++ c :: rest).take 127 = w := by
        rw [List.take_append_eq_append_take, hw127]
        simp [List.take_of_length_le (Nat.le_of_eq hw127)]
      rw [h1, h2, hw127]

theorem list_getD_append_mid {α : Type} (t : List α) (y : α) (r : List α) (d : α) :
    (t ++ y :: r).getD t.length d = y := by
  induction t with
  | nil => rfl
  | cons x xs ih => simpa using ih

theorem log_write_spec (m w : List Nat) (hm : ∀ c ∈ m, c ≠ 0) (hw : w.length ≤ 127) :
    log_write m ⟨w ++ List.replicate (128 - w.length) 0, w.length⟩ =
      ⟨(w ++ m).take 127 ++ List.replicate (128 - min (w.length + m.length) 127) 0,
        min (w.length + m.length) 127⟩ := by
  unfold log_write
  rw [log_write_loop_spec m w hm hw]
  have hlen : ((w ++ m).take 127).length = min (w.length + m.length) 127 := by
    rw [List.length_take, List.length_append, Nat.min_comm]
  have hrep : List.replicate (128 - min (w.length + m.length) 127) (0 : Nat) =
      0 :: List.replicate (127 - min (w.length + m.length) 127) 0 := by
    rw [show 128 - min (w.length + m.length) 127 =
      (127 - min (w.length + m.length) 127) + 1 by omega, List.replicate_succ]
  dsimp only
  rw [hrep, ← hlen, list_set_append_mid]

theorem log_fold_spec (msgs : List (List Nat)) : ∀ w : List Nat,
    (∀ m ∈ msgs, ∀ c ∈ m, c ≠ 0) → w.length ≤ 127 →
      msgs.foldl (fun lb m => log_write m lb)
          ⟨w ++ List.replicate (128 - w.length) 0, w.length⟩ =
        ⟨(w ++ msgs.flatten).take 127 ++
            List.replicate (128 - min (w.length + msgs.flatten.length) 127) 0,
          min (w.length + msgs.flatten.length) 127⟩ := by
  induction msgs with
  | nil =>
    intro w hm hw
    simp only [List.foldl_nil, List.flatten_nil, List.append_nil, List.length_nil,
      Nat.add_zero]
    rw [List.take_of_length_le hw, Nat.min_eq_left hw]
  | cons m ms ih =>
    intro w hm hw
    simp only [List.foldl_cons]
    rw [log_write_spec m w (hm m (List.mem_cons_self _ _)) hw]
    have hlen : ((w ++ m).take 127).length = min (w.length + m.length) 127 := by
      rw [List.length_take, List.length_append, Nat.min_comm]
    rw [← hlen,
      ih ((w ++ m).take 127) (fun x hx => hm x (List.mem_cons_of_mem _ hx))
        (by rw [hlen]; omega)]
    have htake : (((w ++ m).take 127) ++ ms.flatten).take 127 =
        ((w ++ m) ++ ms.flatten).take 127 := list_take_append_take _ _ _
    have hwm : ((w ++ m) ++ ms.flatten : List Nat) = w ++ (m :: ms).flatten := by
      simp [List.flatten_cons, List.append_assoc]
    have hnum : ((w ++ m).take 127).length + ms.flatten.length = 
        min (w.length + m.length) 127 + ms.flatten.length := by rw [hlen]
    have hmin : min (min (w.length + m.length) 127 + ms.flatten.length) 127 =
        min (w.length + (m :: ms).flatten.length) 127 := by
      simp only [List.flatten_cons, List.length_append]
      omega
    rw [htake, hwm, hnum, hmin]

/-- C9: the fallback log is truncated and never wrapped.  After any
sequence of log_write calls with NUL-free messages, starting from the
zero-initialized buffer: the array keeps its fixed capacity; the write
position equals the concatenated message length capped at capacity minus
one, so it never exceeds capacity minus one and never wraps; the stored
bytes are exactly the concatenation of the messages truncated at the write
position; the byte at the write position is NUL; and any further writes
only move the position forward and never change the bytes already stored. -/
theorem log_buffer_truncates_never_wraps (msgs : List (List Nat))
    (hm : ∀ m ∈ msgs, ∀ c ∈ m, c ≠ 0) :
    (msgs.foldl (fun lb m => log_write m lb) log_init).arr.length = LOG_SIZE ∧
      (msgs.foldl (fun lb m => log_write m lb) log_init).pos =
        min msgs.flatten.length (LOG_SIZE - 1) ∧
      (msgs.foldl (fun lb m => log_write m lb) log_init).pos ≤ LOG_SIZE - 1 ∧
      (msgs.foldl (fun lb m => log_write m lb) log_init).arr.take
          (msgs.foldl (fun lb m => log_write m lb) log_init).pos =
        msgs.flatten.take (msgs.foldl (fun lb m => log_write m lb) log_init).pos ∧
      (msgs.foldl (fun lb m => log_write m lb) log_init).arr.getD
          (msgs.foldl (fun lb m => log_write m lb) log_init).pos 0 = 0 ∧
      (∀ more : List (List Nat), (∀ m ∈ more, ∀ c ∈ m, c ≠ 0) →
        (msgs.foldl (fun lb m => log_write m lb) log_init).pos ≤
            ((msgs ++ more).foldl (fun lb m => log_write m lb) log_init).pos ∧
          ((msgs ++ more).foldl (fun lb m => log_write m lb) log_init).arr.take
              (msgs.foldl (fun lb m => log_write m lb) log_init).pos =
            (msgs.foldl (fun lb m => log_write m lb) log_init).arr.take
              (msgs.foldl (fun lb m => log_write m lb) log_init).pos) := by
  have hinit : (log_init : LogBuf) =
      ⟨([] : List Nat) ++ List.replicate (128 - ([] : List Nat).length) 0,
        ([] : List Nat).length⟩ := rfl
  have hclosed : ∀ (ms : List (List Nat)), (∀ m ∈ ms, ∀ c ∈ m, c ≠ 0) →
      ms.foldl (fun lb m => log_write m lb) log_init =
        ⟨ms.flatten.take 127 ++ List.replicate (128 - min ms.flatten.length 127) 0,
          min ms.flatten.length 127⟩ := by
    intro ms hms
    rw [hinit, log_fold_spec ms [] hms (by simp)]
    simp
  have htake : ∀ (f : List Nat) (p : Nat), p ≤ min f.length 127 →
      (f.take 127 ++ List.replicate (128 - min f.length 127) 0).take p = f.take p := by
    intro f p hp
    rw [List.take_append_eq_append_take, List.take_take, List.length_take]
    have h1 : min p 127 = p := by omega
    have h2 : p - min 127 f.length = 0 := by omega
    rw [h1, h2, List.take_zero, List.append_nil]
  rw [hclosed msgs hm]
  dsimp only
  refine ⟨?_, ?_, ?_, ?_, ?_, ?_⟩
  · simp only [List.length_append, List.length_take, List.length_replicate, LOG_SIZE]
    omega
  · simp [LOG_SIZE]
  · simp only [LOG_SIZE]
    omega
  · exact htake msgs.flatten (min msgs.flatten.length 127) (by omega)
  · have hrep : List.replicate (128 - min msgs.flatten.length 127) (0 : Nat) =
        0 :: List.replicate (127 - min msgs.flatten.length 127) 0 := by
      rw [show 128 - min msgs.flatten.length 127 =
        (127 - min msgs.flatten.length 127) + 1 by omega, List.replicate_succ]
    have hlen : (msgs.flatten.take 127).length = min msgs.flatten.length 127 := by
      rw [List.length_take, Nat.min_comm]
    rw [hrep, ← hlen, list_getD_append_mid]
  · intro more hmore
    have hall : ∀ m ∈ msgs ++ more, ∀ c ∈ m, c ≠ 0 := by
      intro m hm2
      rcases List.mem_append.mp hm2 with h | h
      · exact hm m h
      · exact hmore m h
    rw [hclosed (msgs ++ more) hall]
    dsimp only
    constructor
    · simp only [List.flatten_append, List.length_append]
      omega
    · rw [htake msgs.flatten (min msgs.flatten.length 127) (by omega)]
      have hple : min msgs.flatten.length 127 ≤ min (msgs ++ more).flatten.length 127 := by
        simp only [List.flatten_append, List.length_append]
        omega
      rw [htake (msgs ++ more).flatten (min msgs.flatten.length 127) (by omega)]
      rw [List.flatten_append, List.take_append_eq_append_take]
      have h0 : min msgs.flatten.length 127 - msgs.flatten.length = 0 := by omega
      rw [h0, List.take_zero, List.append_nil]

/-- Witness for C9 at a concrete two-message write sequence. -/
theorem log_buffer_truncates_never_wraps_witness :
    (∀ m ∈ [[104, 105], [33]], ∀ c ∈ m, c ≠ 0) ∧
      ([[104, 105], [33]].foldl (fun lb m => log_write m lb) log_init).pos =
        min ([[104, 105], [33]].flatten.length) (LOG_SIZE - 1) :=
  ⟨by decide, (log_buffer_truncates_never_wraps [[104, 105], [33]] (by decide)).2.1⟩
